import Mathlib

/-!
Verification development for the extraction reconciliation engine
(`services/validator.py`, `services/ai.py`, `services/verifier.py`).

The Python code is shallowly embedded: every definition below is translated
from the source file named in its doc comment.  Text is modeled as ASCII
`String`s (all character-level operations are implemented over `String.data`
so that terms evaluate by kernel reduction); Python floats are modeled as
exact rationals `ℚ` (all numeric literals appearing in the engine are small
decimal constants, and the claims under verification only involve decimal
values where IEEE rounding does not affect any of the stated comparisons).
Python regex searches are embedded as explicit leftmost-match scanners; the
three dimension patterns and the feature patterns are simple enough that
greedy maximal-munch matching coincides with Python's backtracking
semantics (each repeated character class is disjoint from the class that
follows it), which the matchers below exploit.
-/

namespace RfqEngine

/-! ### Character / string primitives (Python semantics, ASCII model) -/

/-- Python's `\s` class over ASCII: space, tab, newline, carriage return,
vertical tab, form feed. -/
def isSpacePy (c : Char) : Bool :=
  c = ' ' ∨ c = '\t' ∨ c = '\n' ∨ c = '\r' ∨ c = '\x0b' ∨ c = '\x0c'

/-- `needle` occurs as a contiguous substring of `hay` (Python's `in`). -/
def substrL (needle : List Char) : List Char → Bool
  | [] => needle.isEmpty
  | c :: cs => needle.isPrefixOf (c :: cs) || substrL needle cs

/-- Python `needle in hay` on strings. -/
def substr (needle hay : String) : Bool :=
  substrL needle.data hay.data

/-- Python `str.strip()` (ASCII whitespace). -/
def pyStrip (s : String) : String :=
  String.mk (((s.data.dropWhile isSpacePy).reverse.dropWhile isSpacePy).reverse)

/-- Python `str.upper()` (ASCII). -/
def pyUpper (s : String) : String :=
  String.mk (s.data.map Char.toUpper)

/-- Python `str.startswith(p)`. -/
def pyStartsWith (s p : String) : Bool :=
  p.data.isPrefixOf s.data

/-- Python `str.replace(" ", "")`: remove every space character. -/
def removeSpaces (s : String) : String :=
  String.mk (s.data.filter (fun c => c ≠ ' '))

/-- Python `str.split(sep)` for a one-character separator. -/
def splitOnChar (sep : Char) : List Char → List (List Char)
  | [] => [[]]
  | c :: cs =>
    let rest := splitOnChar sep cs
    if c = sep then [] :: rest
    else
      match rest with
      | r :: rs => (c :: r) :: rs
      | [] => [[c]]

/-- Python `text.split('\n')`. -/
def splitLines (s : String) : List String :=
  (splitOnChar '\n' s.data).map String.mk

/-- Python `sep.split('-')` etc. on strings. -/
def pySplit (sep : Char) (s : String) : List String :=
  (splitOnChar sep s.data).map String.mk

/-- Python `"\n".join(lines)` / `"-".join(parts)`. -/
def pyJoin (sep : String) : List String → String
  | [] => String.mk []
  | [x] => x
  | x :: y :: rest => String.mk (x.data ++ sep.data ++ (pyJoin sep (y :: rest)).data)

/-- Numeric value of a decimal digit string (`float("007") = 7.0`). -/
def digitsVal (ds : List Char) : ℕ :=
  ds.foldl (fun n c => 10 * n + (c.toNat - ('0').toNat)) 0

/-- Value of a regex-captured number group (digits with an optional single
`.` or `,` decimal separator), after Python's `d.replace(',', '.')` and
`float(...)`; exact rational model of the decimal value. -/
def numVal (ds : List Char) : ℚ :=
  let intPart := ds.takeWhile Char.isDigit
  let rest := ds.dropWhile Char.isDigit
  match rest with
  | _ :: frac => mkRat (digitsVal intPart * 10 ^ frac.length + digitsVal frac) (10 ^ frac.length)
  | [] => (digitsVal intPart : ℚ)

/-- Python `float(s)` for a string of digits and dots (the only shape fed to
it by the engine's M-code range check): defined iff there is at most one dot
and at least one digit. -/
def parsePyFloat (s : String) : Option ℚ :=
  let cs := s.data
  if cs.count '.' ≤ 1 ∧ cs.any Char.isDigit then
    let intPart := cs.takeWhile Char.isDigit
    let rest := cs.dropWhile Char.isDigit
    match rest with
    | _ :: frac => some (mkRat (digitsVal intPart * 10 ^ frac.length + digitsVal frac) (10 ^ frac.length))
    | [] => some (digitsVal intPart : ℚ)
  else none

/-! ### Dimension parsing (`validator.py::parse_dimensions_from_string`) -/

/-- Maximal run of decimal digits and the remaining input. -/
def takeDigits (cs : List Char) : List Char × List Char :=
  (cs.takeWhile Char.isDigit, cs.dropWhile Char.isDigit)

/-- Match the regex fragment `\d+(?:[.,]\d+)?` (a captured number group) at
the head of the input, returning the captured characters and the rest.
Greedy matching is exact here: the character after a digit run must be
`[.,]` or fall outside the group, and both are disjoint from `\d`. -/
def matchNumAt (cs : List Char) : Option (List Char × List Char) :=
  let (d1, r1) := takeDigits cs
  if d1.isEmpty then none
  else
    match r1 with
    | c :: r2 =>
      if c = '.' ∨ c = ',' then
        let (d2, r3) := takeDigits r2
        if d2.isEmpty then some (d1, r1) else some (d1 ++ c :: d2, r3)
      else some (d1, r1)
    | [] => some (d1, [])

/-- Regex fragment `\s*` (greedy). -/
def skipWs (cs : List Char) : List Char :=
  cs.dropWhile isSpacePy

/-- Regex fragment `[xX]`. -/
def matchX : List Char → Option (List Char)
  | c :: r => if c = 'x' ∨ c = 'X' then some r else none
  | [] => none

/-- Match `(\d+(?:[.,]\d+)?)[hH]\d+\s*[xX]\s*(\d+(?:[.,]\d+)?)\s*[xX]\s*(\d+(?:[.,]\d+)?)`
(pattern `pattern_tolerance_3d`) at the head of the input.  Returns the
three captured number groups plus the (uncaptured) tolerance digits. -/
def matchTol3dAt (cs : List Char) : Option (List Char × List Char × List Char × List Char) := do
  let (w, r) ← matchNumAt cs
  match r with
  | c :: r =>
    if c = 'h' ∨ c = 'H' then
      let (t, r) := takeDigits r
      if t.isEmpty then none
      else do
        let r ← matchX (skipWs r)
        let (h, r) ← matchNumAt (skipWs r)
        let r ← matchX (skipWs r)
        let (l, _) ← matchNumAt (skipWs r)
        some (w, t, h, l)
    else none
  | [] => none

/-- Match `(\d+(?:[.,]\d+)?)\s*[xX]\s*(\d+(?:[.,]\d+)?)\s*[xX]\s*(\d+(?:[.,]\d+)?)`
(pattern `pattern_3d`) at the head of the input. -/
def match3dAt (cs : List Char) : Option (List Char × List Char × List Char) := do
  let (w, r) ← matchNumAt cs
  let r ← matchX (skipWs r)
  let (h, r) ← matchNumAt (skipWs r)
  let r ← matchX (skipWs r)
  let (l, _) ← matchNumAt (skipWs r)
  some (w, h, l)

/-- Match `(\d+(?:[.,]\d+)?)\s*[xX]\s*(\d+(?:[.,]\d+)?)` (pattern
`pattern_2d`) at the head of the input. -/
def match2dAt (cs : List Char) : Option (List Char × List Char) := do
  let (w, r) ← matchNumAt cs
  let r ← matchX (skipWs r)
  let (h, _) ← matchNumAt (skipWs r)
  some (w, h)

/-- Leftmost match of `pattern_tolerance_3d` (Python `re.search`). -/
def searchTol3d : List Char → Option (List Char × List Char × List Char × List Char)
  | [] => none
  | c :: cs => matchTol3dAt (c :: cs) <|> searchTol3d cs

/-- Leftmost match of `pattern_3d`. -/
def search3d : List Char → Option (List Char × List Char × List Char)
  | [] => none
  | c :: cs => match3dAt (c :: cs) <|> search3d cs

/-- Leftmost match of `pattern_2d`. -/
def search2d : List Char → Option (List Char × List Char)
  | [] => none
  | c :: cs => match2dAt (c :: cs) <|> search2d cs

/-- Dimensions record (`config["dimensions"]`): each of the three fields is
a number or absent (`None`). -/
structure Dimensions where
  width : Option ℚ := none
  height : Option ℚ := none
  length : Option ℚ := none
deriving DecidableEq, Repr

/-- `validator.py::parse_dimensions_from_string`.  Tries the
tolerance-aware 3-D pattern, then the plain 3-D pattern, then the 2-D
pattern; the `float(...)` conversions of the source can never raise because
every captured group is digits with at most one `[.,]` separator, so the
`except ValueError: pass` arms are unreachable. -/
def parse_dimensions_from_string (text : String) : Option Dimensions :=
  match searchTol3d text.data with
  | some (w, _, h, l) => some { width := some (numVal w), height := some (numVal h), length := some (numVal l) }
  | none =>
    match search3d text.data with
    | some (w, h, l) => some { width := some (numVal w), height := some (numVal h), length := some (numVal l) }
    | none =>
      match search2d text.data with
      | some (w, h) => some { width := some (numVal w), height := some (numVal h), length := none }
      | none => none

/-- A nonempty run of decimal digits. -/
def DigitStr (ds : List Char) : Prop :=
  ds ≠ [] ∧ ∀ c ∈ ds, c.isDigit = true

/-- A number as matched by the captured group `\d+(?:[.,]\d+)?`: digits, or
digits, a `.`/`,` separator, and more digits. -/
def NumStr (ds : List Char) : Prop :=
  DigitStr ds ∨
    ∃ d1 c d2, ds = d1 ++ c :: d2 ∧ DigitStr d1 ∧ (c = '.' ∨ c = ',') ∧ DigitStr d2

instance (ds : List Char) : Decidable (DigitStr ds) := by
  unfold DigitStr
  infer_instance

/-! ### Feature extraction (`validator.py::extract_features_from_string`) -/

/-- A `config.features` entry (`{"feature_type": ..., "spec": ...}`). -/
structure Feature where
  feature_type : String
  spec : String
deriving DecidableEq, Repr

/-- Match the fragment `(M\d+)(?:[\s\-]|$)` (case-insensitive `M`) at the
head of the input: captured code and remaining input after the consumed
trailing delimiter. -/
def mBodyAt : List Char → Option (List Char × List Char)
  | c :: rest =>
    if c = 'M' ∨ c = 'm' then
      let (d, r) := takeDigits rest
      if d.isEmpty then none
      else
        match r with
        | [] => some (c :: d, [])
        | t :: r2 => if isSpacePy t ∨ t = '-' then some (c :: d, r2) else none
    else none
  | [] => none

/-- Match `(?:^|[\s\-])(M\d+)(?:[\s\-]|$)` at one scan position.  The `^`
alternative applies only at the very start of the string (`atStart`); the
`[\s\-]` alternative consumes its delimiter, exactly as Python does. -/
def mCodeMatchAt (atStart : Bool) (cs : List Char) : Option (List Char × List Char) :=
  match (if atStart then mBodyAt cs else none) with
  | some res => some res
  | none =>
    match cs with
    | c :: rest => if isSpacePy c ∨ c = '-' then mBodyAt rest else none
    | [] => none

/-- Fuel-driven scan implementing `re.findall` for the M-code pattern:
advance to the end of each match, else by one character. -/
def mCodeScan : ℕ → Bool → List Char → List String
  | 0, _, _ => []
  | _ + 1, _, [] => []
  | fuel + 1, atStart, c :: cs =>
    match mCodeMatchAt atStart (c :: cs) with
    | some (cap, rest) => String.mk cap :: mCodeScan fuel false rest
    | none => mCodeScan fuel false cs

/-- `re.findall(m_code_pattern, text, re.IGNORECASE)`. -/
def mCodeFindAll (text : String) : List String :=
  mCodeScan (text.data.length + 1) true text.data

/-- Match `(H\d+)(?=[xX\s\-]|$)` (case-sensitive `H`) at the head of the
input; the lookahead is not consumed. -/
def hBodyAt : List Char → Option (List Char × List Char)
  | c :: rest =>
    if c = 'H' then
      let (d, r) := takeDigits rest
      if d.isEmpty then none
      else
        match r with
        | [] => some (c :: d, [])
        | t :: _ => if t = 'x' ∨ t = 'X' ∨ isSpacePy t ∨ t = '-' then some (c :: d, r) else none
    else none
  | [] => none

/-- Match `(?:^|[\s\-\d])(H\d+)(?=[xX\s\-]|$)` at one scan position. -/
def hTolMatchAt (atStart : Bool) (cs : List Char) : Option (List Char × List Char) :=
  match (if atStart then hBodyAt cs else none) with
  | some res => some res
  | none =>
    match cs with
    | c :: rest => if isSpacePy c ∨ c = '-' ∨ c.isDigit then hBodyAt rest else none
    | [] => none

/-- Fuel-driven `re.findall` scan for the H-tolerance pattern. -/
def hTolScan : ℕ → Bool → List Char → List String
  | 0, _, _ => []
  | _ + 1, _, [] => []
  | fuel + 1, atStart, c :: cs =>
    match hTolMatchAt atStart (c :: cs) with
    | some (cap, rest) => String.mk cap :: hTolScan fuel false rest
    | none => hTolScan fuel false cs

/-- `re.findall(h_tol_pattern, text)`. -/
def hTolFindAll (text : String) : List String :=
  hTolScan (text.data.length + 1) true text.data

/-- Case-insensitive match of the literal `NZG` followed by `(?:[\s\-;,]|$)`
at the head of the input. -/
def nzgBodyAt : List Char → Bool
  | n :: z :: g :: rest =>
    (n.toUpper = 'N' && z.toUpper = 'Z' && g.toUpper = 'G') &&
      match rest with
      | [] => true
      | t :: _ => isSpacePy t ∨ t = '-' ∨ t = ';' ∨ t = ','
  | _ => false

/-- `re.search(r'(?:^|[\s\-])NZG(?:[\s\-;,]|$)', text, re.IGNORECASE)`. -/
def nzgScan : Bool → List Char → Bool
  | atStart, c :: cs =>
    (atStart && nzgBodyAt (c :: cs)) ||
      ((isSpacePy c ∨ c = '-') && nzgBodyAt cs) ||
      nzgScan false cs
  | _, [] => false

/-- Whether the NZG pattern occurs in the text. -/
def nzgSearch (text : String) : Bool :=
  nzgScan true text.data

/-- Append a feature unless a feature with the same `spec` is present
(the source's `if not any(f['spec'] == ...)` dedup-by-spec checks). -/
def addFeatureIfNew (fs : List Feature) (f : Feature) : List Feature :=
  if fs.any (fun g => g.spec = f.spec) then fs else fs ++ [f]

/-- `validator.py::extract_features_from_string`: M-codes as `thread`,
H-tolerances as `tolerance`, NZG as `coating`, deduplicated by spec,
with all specs upper-cased. -/
def extract_features_from_string (text : String) : List Feature :=
  let fs : List Feature :=
    (mCodeFindAll text).foldl (fun fs code => addFeatureIfNew fs ⟨"thread", pyUpper code⟩) []
  let fs :=
    (hTolFindAll text).foldl (fun fs code => addFeatureIfNew fs ⟨"tolerance", pyUpper code⟩) fs
  if nzgSearch text then addFeatureIfNew fs ⟨"coating", "NZG"⟩ else fs

/-! ### Material auto-correction (`validator.py::fix_material`) -/

/-- The fixed whitelist of accepted material grade codes (`VALID_MATERIALS`). -/
def VALID_MATERIALS : List String :=
  ["C45", "C45+C", "C45K", "42CrMo4", "1.4301", "1.4305", "1.4571", "1.4404", "1.4057"]

/-- Known bad-to-correct material mappings (`MATERIAL_FIX_MAP`). -/
def MATERIAL_FIX_MAP : List (String × String) :=
  [("P5K", "C45K"), ("P5C", "C45+C"), ("C45C", "C45+C"), ("P85-C45K", "C45K"),
   ("P885-C45C", "C45+C"), ("P885-C45+C", "C45+C"), ("P85-C45+C", "C45+C"), ("P85-C45C", "C45+C")]

/-- Exact-match lookup in `MATERIAL_FIX_MAP`. -/
def fixMapLookup (m : String) : Option String :=
  (MATERIAL_FIX_MAP.find? (fun p => p.1 = m)).map Prod.snd

/-- The P-prefix stripping loop of `fix_material` (first matching prefix of
`["P885-", "P85-", "PF-", "P5", "P8"]` is removed, case-insensitively). -/
def stripJunkPre (s : String) : String :=
  if pyStartsWith (pyUpper s) "P885-" then String.mk (s.data.drop 5)
  else if pyStartsWith (pyUpper s) "P85-" then String.mk (s.data.drop 4)
  else if pyStartsWith (pyUpper s) "PF-" then String.mk (s.data.drop 3)
  else if pyStartsWith (pyUpper s) "P5" then String.mk (s.data.drop 2)
  else if pyStartsWith (pyUpper s) "P8" then String.mk (s.data.drop 2)
  else s

/-- `re.match(r'^C45[A-Z]?$', s, re.IGNORECASE)` as a full-string test. -/
def isC45Family (s : String) : Bool :=
  match s.data.map Char.toUpper with
  | ['C', '4', '5'] => true
  | ['C', '4', '5', c] => c.isAlpha
  | _ => false

/-- `validator.py::fix_material`: exact fix-map lookup, whitelist check,
prefix stripping with a re-check, then the C45-family normalizer; returns
the original value when nothing applies. -/
def fix_material (material : String) : String :=
  if material = "" then material
  else
    match fixMapLookup material with
    | some fixed => fixed
    | none =>
      if material ∈ VALID_MATERIALS then material
      else
        let cleaned := stripJunkPre material
        if cleaned ∈ VALID_MATERIALS then cleaned
        else if isC45Family cleaned then
          if pyUpper cleaned = "C45C" then "C45+C"
          else if pyUpper cleaned = "C45K" then "C45K"
          else material
        else material

/-! ### Data model (§3 of the spec; the JSON shapes used by the engine) -/

/-- `config`: nested technical specification of a line item. -/
structure Config where
  material_id : String := ""
  standard : String := ""
  form : String := ""
  material : String := ""
  dimensions : Dimensions := {}
  features : List Feature := []
  weight_per_unit : Option ℚ := none
deriving DecidableEq, Repr

/-- A partial `config` carried by a verifier correction; `dict.update`
overwrites exactly the keys present in the patch. -/
structure ConfigPatch where
  material_id : Option String := none
  standard : Option String := none
  form : Option String := none
  material : Option String := none
  dimensions : Option Dimensions := none
  features : Option (List Feature) := none
  weight_per_unit : Option (Option ℚ) := none
deriving DecidableEq, Repr

/-- A verifier correction payload (`correction` in the verification result). -/
structure Correction where
  config : Option ConfigPatch := none
  article_name : Option String := none
deriving DecidableEq, Repr

/-- The verifier's JSON response shape
(`{is_correct, confidence_score, correction?, reason}`). -/
structure VerifResult where
  is_correct : Bool
  confidence_score : ℚ := mkRat 1 2
  correction : Option Correction := none
  reason : String := ""
deriving DecidableEq, Repr

/-- Engine-only bookkeeping (`item["metadata"]`).  Absent optional keys are
modeled by the stated defaults, matching the `dict.get` defaults used by
the source (`snippet_is_fallback` absent reads as falsy, i.e. `false`). -/
structure Metadata where
  raw_text_snippet : String := ""
  snippet_is_fallback : Bool := false
  rule_confidence_score : Option ℚ := none
  material_auto_corrected : Option String := none
  verification_result : Option VerifResult := none
  status : Option String := none
deriving DecidableEq, Repr

/-- One requested line item.  `quantity`/`unit`/`delivery_date` and the two
material numbers are untouched by the reconciliation core. -/
structure Item where
  pos : String := ""
  article_name : String := ""
  supplier_material_number : Option String := none
  customer_material_number : Option String := none
  quantity : Option ℚ := none
  unit : Option String := none
  delivery_date : Option String := none
  config : Config := {}
  metadata : Metadata := {}
deriving DecidableEq, Repr

/-! ### Confidence scoring (`validator.py::calculate_confidence`) -/

/-- Truthiness of one dimension value: present and nonzero
(`v is not None and v != 0`). -/
def dimTruthy : Option ℚ → Bool
  | none => false
  | some v => v != 0

/-- `any(v is not None and v != 0 for v in dims_in_json.values())`. -/
def hasAnyDimIn (d : Dimensions) : Bool :=
  dimTruthy d.width || dimTruthy d.height || dimTruthy d.length

/-- The source's character loop building `num_part`: the leading run of
digits and dots after the `M`. -/
def mNumPart (spec : String) : String :=
  String.mk ((spec.data.drop 1).takeWhile (fun c => c.isDigit || c = '.'))

/-- One iteration of the M-code range check: features whose stripped,
upper-cased spec starts with `M` have their leading digits-and-dots run
parsed; a value outside `[1, 21]` costs `0.3`.  An unparseable number
(the `except` arm) costs nothing. -/
def mRangeStep (score : ℚ) (feat : Feature) : ℚ :=
  let spec := pyUpper (pyStrip feat.spec)
  if pyStartsWith spec "M" then
    if mNumPart spec ≠ "" then
      match parsePyFloat (mNumPart spec) with
      | some v => if ¬ (1 ≤ v ∧ v ≤ 21) then score - 3/10 else score
      | none => score
    else score
  else score

/-- `validator.py::calculate_confidence`: start from `1.0`, apply the
penalties in source order, return `max(0.0, score)`; an empty (or missing)
snippet short-circuits to `0.5`. -/
def calculate_confidence (item : Item) (raw_text_snippet : String) : ℚ :=
  if raw_text_snippet = "" then 1/2
  else
    let config := item.config
    let score : ℚ := 1
    let hasAnyDim := hasAnyDimIn config.dimensions
    let score := if ¬ hasAnyDim then score - 2/5 else score
    let dimsInText := parse_dimensions_from_string raw_text_snippet
    let score := if dimsInText.isSome ∧ ¬ hasAnyDim then score - 3/10 else score
    let textFeatures := extract_features_from_string raw_text_snippet
    let score := textFeatures.foldl
      (fun s tf => if config.features.any (fun jf => jf.spec = tf.spec) then s else s - 1/5) score
    let form := config.form
    let score :=
      if form ≠ "" ∧ form.length = 1 ∧ substr (form ++ "=") (removeSpaces raw_text_snippet) then
        score - 2/5
      else score
    let score := if config.form = "B" ∧ substr "B=" raw_text_snippet then score - 2/5 else score
    let mat := config.material
    let score :=
      if mat ≠ "" ∧ ¬ ((pySplit '/' mat).map pyStrip).all (fun p => p ∈ VALID_MATERIALS) then
        score - 3/10
      else score
    let score := config.features.foldl mRangeStep score
    let score := if substr "Form" raw_text_snippet ∧ form = "" then score - 1/10 else score
    max 0 score

/-! ### Snippet location (`validator.py::validate_and_fix_items`, step 1) -/

/-- `re.match(rf"^\s*{re.escape(pos)}\s+", line)`: optional leading
whitespace, the literal (escaped) position, then at least one whitespace
character.  The greedy `\s*` is exact because `pos` is stripped, hence
starts with a non-space character. -/
def lineMatchesPos (pos line : String) : Bool :=
  let rest := line.data.dropWhile isSpacePy
  pos.data.isPrefixOf rest &&
    match rest.drop pos.data.length with
    | c :: _ => isSpacePy c
    | [] => false

/-- Tier 1: position-anchor line plus the following five lines
(`lines[idx:min(len, idx+6)]`).  A found window is never the empty string
(the anchor line contains `pos` plus whitespace), so the source's
`if target_line:` truthiness test coincides with this `Option`. -/
def posAnchorSnippet (pos : String) (lines : List String) : Option String :=
  if pos ≠ "" then
    match lines.findIdx? (fun line => lineMatchesPos pos line) with
    | some idx => some (pyJoin "\n" ((lines.drop idx).take 6))
    | none => none
  else none

/-- Tier 2: first line containing a `material_id` longer than five
characters, with up to five preceding context lines
(`lines[max(0, idx-5):idx+1]`). -/
def materialIdSnippet (matId : String) (lines : List String) : Option String :=
  if matId ≠ "" ∧ 5 < matId.length then
    match lines.findIdx? (fun line => substr matId line) with
    | some idx => some (pyJoin "\n" ((lines.take (idx + 1)).drop (idx - 5)))
    | none => none
  else none

/-- The tokens of `article_name.split('-')` longer than three characters
(`significant_parts`). -/
def significantTokens (article : String) : List String :=
  (pySplit '-' article).filter (fun p => 3 < p.length)

/-- Tier 3: first line in which, provided at least two significant tokens
exist, every significant token occurs
(`len(significant_parts) >= 2 and all(part in line ...)`). -/
def tokenOverlapSnippet (article : String) (lines : List String) : Option String :=
  let sig := significantTokens article
  lines.find? (fun line => decide (2 ≤ sig.length) && sig.all (fun part => substr part line))

/-- The full snippet-location cascade: position anchor, then material-id
anchor, then token overlap, then the article-name fallback (flagged), then
the empty snippet. -/
def locateSnippet (pos article matId : String) (lines : List String) : String × Bool :=
  match posAnchorSnippet pos lines with
  | some t => (t, false)
  | none =>
    match materialIdSnippet matId lines with
    | some t => (t, false)
    | none =>
      match (if article ≠ "" then tokenOverlapSnippet article lines else none) with
      | some t => (t, false)
      | none => if article ≠ "" then (article, true) else ("", false)

/-! ### Field normalization (`validate_and_fix_items`, steps 2-3e) -/

/-- Record the located snippet; `snippet_is_fallback` is only assigned when
the fallback was used (`if used_fallback: ... = True`). -/
def setSnippetMeta (item : Item) (t : String) (fb : Bool) : Item :=
  { item with metadata := { item.metadata with
      raw_text_snippet := t,
      snippet_is_fallback := if fb then true else item.metadata.snippet_is_fallback } }

/-- Step 2: overwrite candidate dimensions with the regex result whenever
the strict parse has a truthy `length` (`if strict_dims and
strict_dims.get("length")`; the dict itself is always truthy). -/
def fixDims (item : Item) (t : String) : Item :=
  match parse_dimensions_from_string t with
  | some d =>
    match d.length with
    | some l => if l ≠ 0 then { item with config := { item.config with dimensions := d } } else item
    | none => item
  | none => item

/-- Step 3: append regex-extracted features absent (by spec) from the
candidate's feature list. -/
def fixFeatures (item : Item) (t : String) : Item :=
  let strict := extract_features_from_string t
  let current := strict.foldl
    (fun cur sf => if cur.any (fun cf => cf.spec = sf.spec) then cur else cur ++ [sf])
    item.config.features
  { item with config := { item.config with features := current } }

/-- Step 3b: hard auto-correct of known bad material values, recording the
change in `metadata.material_auto_corrected`. -/
def fixMaterialStep (item : Item) : Item :=
  let raw := item.config.material
  if raw ≠ "" then
    let fixed := fix_material raw
    if fixed ≠ raw then
      { item with
        config := { item.config with material := fixed },
        metadata := { item.metadata with
          material_auto_corrected := some (raw ++ " -> " ++ fixed) } }
    else item
  else item

/-- The fixed form candidates scanned by step 3c, in source order. -/
def FORM_CANDIDATES : List String := ["AS", "AB", "A", "B", "C"]

/-- Step 3c: backfill a missing form from `-<cand>-` or a leading
`<cand>-` occurrence in the snippet.  (The source also computes an unused
`form_match` regex result, which has no effect and is not modeled.) -/
def fixFormStep (item : Item) (t : String) : Item :=
  if item.config.form = "" ∧ t ≠ "" then
    match FORM_CANDIDATES.find? (fun c => substr ("-" ++ c ++ "-") t || pyStartsWith t (c ++ "-")) with
    | some c => { item with config := { item.config with form := c } }
    | none => item
  else item

/-- The whitelist ordering used by step 3d's backfill loop (note `C45+C`
before `C45`, unlike the scoring whitelist). -/
def BACKFILL_MATERIALS : List String :=
  ["C45+C", "C45K", "C45", "42CrMo4", "1.4301", "1.4305", "1.4571", "1.4404", "1.4057"]

/-- Step 3d: backfill a missing material from a verbatim whitelist
occurrence, else from the upper-cased OCR-misread checks. -/
def backfillMaterialStep (item : Item) (t : String) : Item :=
  if item.config.material = "" ∧ t ≠ "" then
    match BACKFILL_MATERIALS.find? (fun m => substr m t) with
    | some m => { item with config := { item.config with material := m } }
    | none =>
      let u := pyUpper t
      if substr "C45C" u || substr "C45+C" u then
        { item with config := { item.config with material := "C45+C" } }
      else if substr "C45K" u then
        { item with config := { item.config with material := "C45K" } }
      else item
  else item

/-- Rendering of one dimension value in the reconstructed article name
(`str(int(v)) if float(v) == int(float(v)) else str(v)`).  The non-integral branch
renders the exact rational (`"7/2"`) rather than Python's float notation
(`"3.5"`); no verified property inspects the rendered text, and the
integral branch is exact. -/
def dimValStr (v : ℚ) : String :=
  if v.den = 1 then toString v.num else toString v

/-- Step 3e: always reconstruct `PF-{Form}-{Dimensions}-{Material}-{Features}`,
omitting empty components; adopt it when at least two non-prefix components
exist, or when the candidate name is empty. -/
def rebuildNameStep (item : Item) : Item :=
  let dims := item.config.dimensions
  let form := item.config.form
  let material := item.config.material
  let features := item.config.features
  let dimParts := ([dims.width, dims.height, dims.length].filterMap id).map dimValStr
  let dimStr := if dimParts ≠ [] then pyJoin "X" dimParts else ""
  let featStr :=
    if features ≠ [] then pyJoin "-" ((features.map Feature.spec).filter (fun s => s ≠ "")) else ""
  let nameParts := ["PF"]
    ++ (if form ≠ "" then [form] else [])
    ++ (if dimStr ≠ "" then [dimStr] else [])
    ++ (if material ≠ "" then [material] else [])
    ++ (if featStr ≠ "" then [featStr] else [])
  let constructed := pyJoin "-" nameParts
  let newName :=
    if 3 ≤ nameParts.length then constructed
    else if item.article_name = "" then constructed
    else item.article_name
  { item with article_name := newName }

/-- The per-item body of `validator.py::validate_and_fix_items`: locate the
snippet, record it, normalize fields in source order, score, and apply the
fallback cap.  (The source's `except ... continue` guard can only fire on
dynamically mis-shaped JSON, which the typed model excludes.) -/
def validateItem (sourceLines : List String) (item : Item) : Item :=
  let pos := pyStrip item.pos
  let located := locateSnippet pos item.article_name item.config.material_id sourceLines
  let textToScan := located.1
  let usedFallback := located.2
  let item := setSnippetMeta item textToScan usedFallback
  if textToScan = "" then
    { item with metadata := { item.metadata with rule_confidence_score := some (1/2) } }
  else
    let item := fixDims item textToScan
    let item := fixFeatures item textToScan
    let item := fixMaterialStep item
    let item := fixFormStep item textToScan
    let item := backfillMaterialStep item textToScan
    let item := rebuildNameStep item
    let confidence := calculate_confidence item textToScan
    if usedFallback then
      { item with metadata := { item.metadata with
          rule_confidence_score := some (min confidence (3/5)),
          status := some "raw_line_not_found" } }
    else
      { item with metadata := { item.metadata with rule_confidence_score := some confidence } }

/-- `validator.py::validate_and_fix_items`: choose the source text (native
when present and longer than 20 characters, else OCR), split into lines,
and process each item in place. -/
def validate_and_fix_items (items : List Item) (native_text ocr_text : String) : List Item :=
  let source_text := if native_text ≠ "" ∧ 20 < native_text.length then native_text else ocr_text
  let source_lines := splitLines source_text
  items.map (validateItem source_lines)

/-- The normalization stages between snippet recording and scoring, in
source order. -/
def normalizeStages (item : Item) (t : String) : Item :=
  rebuildNameStep
    (backfillMaterialStep
      (fixFormStep (fixMaterialStep (fixFeatures (fixDims item t) t)) t) t)

/-! ### Verifier collaborator (`verifier.py::Verifier.verify_item`) -/

/-- The fail-open verification result returned when the verifier is
unavailable or its call raises. -/
def failOpenResult (reason : String) : VerifResult :=
  { is_correct := true, confidence_score := mkRat 1 2, correction := none, reason := reason }

/-- `verifier.py::Verifier.verify_item`.  The HTTP call and JSON parse are
abstracted as `callResult`; a missing API key (Python falsy, i.e. `None` or
the empty string) or any raised exception is converted into an
`is_correct = true` result — `verify_item` itself never raises. -/
def verify_item (apiKey : String) (callResult : Except String VerifResult) : VerifResult :=
  if apiKey = "" then failOpenResult "No API Key"
  else
    match callResult with
    | .ok r => r
    | .error e => failOpenResult ("Verifier Error: " ++ e)

/-! ### Escalation controller (`ai.py::extract_data_from_text`, verification layer) -/

/-- `item["config"].update(correction["config"])`: field-by-field overwrite
of the keys present in the patch. -/
def applyConfigPatch (cfg : Config) : Option ConfigPatch → Config
  | none => cfg
  | some p =>
    { material_id := p.material_id.getD cfg.material_id,
      standard := p.standard.getD cfg.standard,
      form := p.form.getD cfg.form,
      material := p.material.getD cfg.material,
      dimensions := p.dimensions.getD cfg.dimensions,
      features := p.features.getD cfg.features,
      weight_per_unit := p.weight_per_unit.getD cfg.weight_per_unit }

/-- The per-item escalation step of `ai.py::extract_data_from_text`
(lines 206-246).  `vresp` is the outcome of the `verifier.verify_item`
invocation (`.error` models the source's `except Exception as ve` arm,
which only logs).  Returns the updated item and whether the verifier was
invoked.  Confidence defaults to `1.0` when the score is absent. -/
def escalateItem (item : Item) (vresp : Except String VerifResult) : Item × Bool :=
  let metadata := item.metadata
  let confidence := metadata.rule_confidence_score.getD 1
  if confidence < 9/10 then
    if metadata.snippet_is_fallback then
      ({ item with metadata := { metadata with status := some "verified_skipped_fallback" } }, false)
    else if metadata.raw_text_snippet ≠ "" then
      match vresp with
      | .error _ => (item, true)
      | .ok vr =>
        let md := { metadata with verification_result := some vr }
        if ¬ vr.is_correct then
          match vr.correction with
          | some corr =>
            ({ item with
                config := applyConfigPatch item.config corr.config,
                article_name := corr.article_name.getD item.article_name,
                metadata := { md with status := some "auto_corrected_by_verifier" } }, true)
          | none =>
            ({ item with metadata := { md with status := some "flagged_by_verifier" } }, true)
        else ({ item with metadata := { md with status := some "verified_correct" } }, true)
    else (item, false)
  else (item, false)

/-- The whole verification layer: the per-item escalation applied over the
validated list (`for item in parsed_json["requested_items"]`). -/
def verificationLayer (verifier : Item → Except String VerifResult) (items : List Item) : List Item :=
  items.map (fun it => (escalateItem it (verifier it)).1)

/-! ### Chunk orchestrator (`ai.py::extract_data_from_text_async`) -/

/-- Python `str(pos).isdigit()` in the ASCII model: nonempty and all
decimal digits. -/
def posIsDigitStr (s : String) : Bool :=
  !s.data.isEmpty && s.data.all Char.isDigit

/-- `float(pos)` for an all-digit position string (exact in ℕ). -/
def posVal (s : String) : ℕ :=
  digitsVal s.data

/-- The sort key relation of `valid_items.sort(key=lambda x: float(x['pos']))`. -/
def posLe (a b : Item) : Prop :=
  posVal a.pos ≤ posVal b.pos

instance : DecidableRel posLe :=
  fun _ _ => Nat.decLe _ _

instance : IsTotal Item posLe :=
  ⟨fun a b => Nat.le_total (posVal a.pos) (posVal b.pos)⟩

instance : IsTrans Item posLe :=
  ⟨fun _ _ _ => Nat.le_trans⟩

/-- The merge-and-reorder step of `extract_data_from_text_async`: items
whose `pos` is all digits are stable-sorted ascending by the numeric value,
the remaining items follow in their original order.  Python's `list.sort`
is a stable ascending sort, which insertion sort with the `≤` key relation
implements exactly (stability is proved below); the `except` arm around the
sort cannot fire in the ASCII model, since `float()` succeeds on every
all-digit string. -/
def sortByPos (items : List Item) : List Item :=
  let valid := items.filter (fun i => posIsDigitStr i.pos)
  let others := items.filter (fun i => !posIsDigitStr i.pos)
  List.insertionSort posLe valid ++ others

/-- Concatenate the partitions' item lists (`asyncio.gather` with
`return_exceptions=True`: a failed partition is logged and contributes
nothing), then sort. -/
def mergeChunkItems (results : List (Except String (List Item))) : List Item :=
  let merged := results.foldl
    (fun acc r => match r with | .ok items => acc ++ items | .error _ => acc) []
  sortByPos merged

/-- The chunked branch of `extract_data_from_text_async` after the join:
the merged result is always returned normally — no partition failure, not
even failure of every partition, is re-raised. -/
def extractChunked (results : List (Except String (List Item))) : Except String (List Item) :=
  .ok (mergeChunkItems results)

/-! ### Definitions following the spec's words (for refinement comparisons) -/

/-- Modelled from the spec: the token-overlap fallback as the spec words it
(§4.1 tier 3): "find a line containing at least two of them" — the first
line containing at least two of the significant tokens.  Compare with the
source-derived `tokenOverlapSnippet`, which requires every token. -/
def tokenOverlapSnippetSpec (article : String) (lines : List String) : Option String :=
  let sig := significantTokens article
  lines.find? (fun line => decide (2 ≤ (sig.filter (fun part => substr part line)).length))

/-- Modelled from the spec: "items whose `pos` parses as a number" (§4.5).
A decimal numeral with an optional fractional part parses as a number
(Python `float()` accepts it).  Compare with the source-derived
`posIsDigitStr`, which accepts only all-digit strings. -/
def posNumericSpec (s : String) : Bool :=
  (parsePyFloat s).isSome

/-! ### Concrete instances used by the claim witnesses -/

/-- An entirely empty candidate item. -/
def itemA : Item := {}

/-- A canned successful verifier response. -/
def vOk : Except String VerifResult := .ok { is_correct := true }

/-- A validated item with confidence `0.85` and a real (non-fallback)
snippet. -/
def itemC3lo : Item :=
  { metadata := { raw_text_snippet := "12 Passfeder 20x12x50",
                  rule_confidence_score := some (17/20) } }

/-- A validated item with confidence `0.95`. -/
def itemC3hi : Item :=
  { metadata := { raw_text_snippet := "12 Passfeder 20x12x50",
                  rule_confidence_score := some (19/20) } }

/-- A low-confidence item with a non-fallback snippet and no status. -/
def itemC4 : Item :=
  { metadata := { raw_text_snippet := "SNIP", rule_confidence_score := some (17/20) } }

/-- An item whose form is the single letter `B` while its dimensions are
present. -/
def itemC8 : Item :=
  { config := { form := "B", dimensions := { width := some 20 } } }

/-- A candidate whose article name has three significant tokens and whose
position has no anchor in the source text. -/
def itemC10 : Item := { pos := "7", article_name := "AAAA-BBBB-CCCC" }

/-- An item carrying only a position label. -/
def mkPosItem (p : String) : Item := { pos := p }

/-- The candidate of the spec's end-to-end scenario (§8): snippet
`"12 Passfeder DIN6885 C45C AS 20x12x50 M6"`, candidate
`config = {material: "C45C", form: "B", dimensions: {}, features: []}`. -/
def itemEndToEnd : Item :=
  { pos := "12", config := { material := "C45C", form := "B" } }

/-! ### Additive decomposition of the confidence score

`calculate_confidence` applies its deductions sequentially; the lemmas
below restate it as `max 0 (1 - sum of penalty terms)`, the additive shape
the spec describes (§4.3). -/

/-- Number of features derivable from the snippet but absent from
`config.features` (by spec): each costs `0.2`. -/
def missedFeatureCount (item : Item) (s : String) : ℕ :=
  ((extract_features_from_string s).filter
    (fun tf => !(item.config.features.any (fun jf => jf.spec = tf.spec)))).length

/-- Whether a configured feature triggers the M-code range penalty. -/
def outOfRangeM (feat : Feature) : Bool :=
  let spec := pyUpper (pyStrip feat.spec)
  pyStartsWith spec "M" && decide (mNumPart spec ≠ "") &&
    (match parsePyFloat (mNumPart spec) with
     | some v => decide (¬ (1 ≤ v ∧ v ≤ 21))
     | none => false)

/-- Number of configured features with an out-of-range M-code: each costs
`0.3`. -/
def outOfRangeCount (item : Item) : ℕ :=
  (item.config.features.filter outOfRangeM).length

/-- The two form/dimension-label deductions of `calculate_confidence`: the
general single-letter check against the despaced snippet, plus the
hard-coded `form == "B"` check against the raw snippet.  Both are `0.4`,
and both can fire on the same item. -/
def formLabelPenalty (item : Item) (s : String) : ℚ :=
  (if item.config.form ≠ "" ∧ item.config.form.length = 1 ∧
      substr (item.config.form ++ "=") (removeSpaces s) then 2/5 else 0)
  + (if item.config.form = "B" ∧ substr "B=" s then 2/5 else 0)

/-- Sum of all other penalty terms of `calculate_confidence`. -/
def otherPenalties (item : Item) (s : String) : ℚ :=
  (if ¬ hasAnyDimIn item.config.dimensions then 2/5 else 0)
  + (if (parse_dimensions_from_string s).isSome ∧ ¬ hasAnyDimIn item.config.dimensions
      then 3/10 else 0)
  + (1/5) * (missedFeatureCount item s : ℚ)
  + (if item.config.material ≠ "" ∧
        ¬ ((pySplit '/' item.config.material).map pyStrip).all (fun p => p ∈ VALID_MATERIALS)
      then 3/10 else 0)
  + (3/10) * (outOfRangeCount item : ℚ)
  + (if substr "Form" s ∧ item.config.form = "" then 1/10 else 0)

lemma foldl_condSub {α : Type} (p : α → Bool) (k : ℚ) :
    ∀ (l : List α) (s : ℚ),
      l.foldl (fun acc a => if p a then acc else acc - k) s
        = s - k * ((l.filter (fun a => !p a)).length : ℚ) := by
  intro l
  induction l with
  | nil => intro s; simp
  | cons a l ih =>
    intro s
    by_cases hp : p a = true
    · rw [List.foldl_cons, if_pos hp, ih]
      have : (!p a) = false := by simp [hp]
      simp [List.filter_cons, this]
    · rw [List.foldl_cons, if_neg hp, ih]
      have : (!p a) = true := by simp [Bool.not_eq_true] at hp; simp [hp]
      simp only [List.filter_cons, this, if_pos, List.length_cons]
      push_cast
      ring

lemma mRangeStep_eq (score : ℚ) (feat : Feature) :
    mRangeStep score feat = if outOfRangeM feat then score - 3/10 else score := by
  unfold mRangeStep outOfRangeM
  by_cases h1 : pyStartsWith (pyUpper (pyStrip feat.spec)) "M" = true
  · by_cases h2 : mNumPart (pyUpper (pyStrip feat.spec)) ≠ ""
    · cases hp : parsePyFloat (mNumPart (pyUpper (pyStrip feat.spec))) with
      | none => simp [h1, h2, hp]
      | some v =>
        by_cases h3 : (1:ℚ) ≤ v ∧ v ≤ 21
        · simp [h1, h2, hp, h3]
        · simp [h1, h2, hp, h3]
    · simp [h1, h2]
  · simp [h1]

lemma foldl_mRange :
    ∀ (l : List Feature) (s : ℚ),
      l.foldl mRangeStep s = s - (3/10) * ((l.filter outOfRangeM).length : ℚ) := by
  intro l
  induction l with
  | nil => intro s; simp
  | cons a l ih =>
    intro s
    rw [List.foldl_cons, mRangeStep_eq]
    by_cases hp : outOfRangeM a = true
    · rw [if_pos hp, ih]
      simp only [List.filter_cons, hp, if_pos, List.length_cons]
      push_cast
      ring
    · rw [if_neg hp, ih]
      have hp' : outOfRangeM a = false := by simpa [Bool.not_eq_true] using hp
      simp [List.filter_cons, hp']

/-- `calculate_confidence` on a nonempty snippet is `1.0` minus the sum of
its (additive, nonnegative) penalty terms, clipped below at `0`. -/
lemma calculate_confidence_eq (item : Item) (s : String) (hs : s ≠ "") :
    calculate_confidence item s
      = max 0 (1 - otherPenalties item s - formLabelPenalty item s) := by
  unfold calculate_confidence
  rw [if_neg hs]
  simp only []
  rw [foldl_condSub, foldl_mRange]
  unfold otherPenalties formLabelPenalty missedFeatureCount outOfRangeCount
  congr 1
  split_ifs <;> ring

lemma formLabelPenalty_nonneg (item : Item) (s : String) : 0 ≤ formLabelPenalty item s := by
  unfold formLabelPenalty
  have h1 : (0:ℚ) ≤ (if item.config.form ≠ "" ∧ item.config.form.length = 1 ∧
      substr (item.config.form ++ "=") (removeSpaces s) then (2:ℚ)/5 else 0) := by
    split <;> norm_num
  have h2 : (0:ℚ) ≤ (if item.config.form = "B" ∧ substr "B=" s then (2:ℚ)/5 else 0) := by
    split <;> norm_num
  linarith

lemma otherPenalties_nonneg (item : Item) (s : String) : 0 ≤ otherPenalties item s := by
  unfold otherPenalties
  have c1 : (0:ℚ) ≤ (if ¬ hasAnyDimIn item.config.dimensions then (2:ℚ)/5 else 0) := by
    split <;> norm_num
  have c2 : (0:ℚ) ≤ (if (parse_dimensions_from_string s).isSome ∧
      ¬ hasAnyDimIn item.config.dimensions then (3:ℚ)/10 else 0) := by
    split <;> norm_num
  have c3 : (0:ℚ) ≤ (1/5) * (missedFeatureCount item s : ℚ) := by positivity
  have c4 : (0:ℚ) ≤ (if item.config.material ≠ "" ∧
      ¬ ((pySplit '/' item.config.material).map pyStrip).all (fun p => p ∈ VALID_MATERIALS)
      then (3:ℚ)/10 else 0) := by
    split <;> norm_num
  have c5 : (0:ℚ) ≤ (3/10) * (outOfRangeCount item : ℚ) := by positivity
  have c6 : (0:ℚ) ≤ (if substr "Form" s ∧ item.config.form = "" then (1:ℚ)/10 else 0) := by
    split <;> norm_num
  linarith

/-- Bounds of the confidence scorer, in helper form. -/
lemma calculate_confidence_bounds (item : Item) (s : String) :
    0 ≤ calculate_confidence item s ∧ calculate_confidence item s ≤ 1 := by
  by_cases hs : s = ""
  · subst hs
    unfold calculate_confidence
    norm_num
  · rw [calculate_confidence_eq item s hs]
    constructor
    · exact le_max_left 0 _
    · apply max_le
      · norm_num
      · have h1 := otherPenalties_nonneg item s
        have h2 := formLabelPenalty_nonneg item s
        linarith

/-! ### Helper lemmas about the snippet locator and the normalizer -/

/-- A fallback outcome of the locator means the snippet is the (nonempty)
article name itself. -/
lemma locateSnippet_fallback {pos article matId t : String} {lines : List String}
    (h : locateSnippet pos article matId lines = (t, true)) :
    t = article ∧ article ≠ "" := by
  unfold locateSnippet at h
  split at h
  · simp at h
  · split at h
    · simp at h
    · split at h
      · simp at h
      · split at h
        next ha =>
          rw [Prod.mk.injEq] at h
          exact ⟨h.1.symm, ha⟩
        next _ => simp at h

lemma setSnippetMeta_fb (item : Item) (t : String) :
    (setSnippetMeta item t true).metadata.snippet_is_fallback = true := rfl

lemma fixDims_metadata (item : Item) (t : String) :
    (fixDims item t).metadata = item.metadata := by
  unfold fixDims
  split
  · split
    · split <;> rfl
    · rfl
  · rfl

lemma fixFeatures_metadata (item : Item) (t : String) :
    (fixFeatures item t).metadata = item.metadata := rfl

lemma fixMaterialStep_fb (item : Item) :
    (fixMaterialStep item).metadata.snippet_is_fallback
      = item.metadata.snippet_is_fallback := by
  unfold fixMaterialStep
  by_cases h1 : item.config.material ≠ ""
  · rw [if_pos h1]
    by_cases h2 : fix_material item.config.material ≠ item.config.material <;> simp [h2]
  · rw [if_neg h1]

lemma fixFormStep_metadata (item : Item) (t : String) :
    (fixFormStep item t).metadata = item.metadata := by
  unfold fixFormStep
  by_cases h1 : item.config.form = "" ∧ t ≠ ""
  · rw [if_pos h1]
    rcases FORM_CANDIDATES.find?
        (fun c => substr ("-" ++ c ++ "-") t || pyStartsWith t (c ++ "-")) with _ | c
    · rfl
    · rfl
  · rw [if_neg h1]

lemma backfillMaterialStep_metadata (item : Item) (t : String) :
    (backfillMaterialStep item t).metadata = item.metadata := by
  unfold backfillMaterialStep
  by_cases h1 : item.config.material = "" ∧ t ≠ ""
  · rw [if_pos h1]
    rcases BACKFILL_MATERIALS.find? (fun m => substr m t) with _ | m
    · by_cases h2 : (substr "C45C" (pyUpper t) || substr "C45+C" (pyUpper t)) = true
      · simp [h2]
      · simp only [Bool.not_eq_true] at h2
        by_cases h3 : substr "C45K" (pyUpper t) = true <;> simp [h2, h3]
    · rfl
  · rw [if_neg h1]

lemma rebuildNameStep_metadata (item : Item) :
    (rebuildNameStep item).metadata = item.metadata := rfl

lemma normalizeStages_fb (item : Item) (t : String) :
    (normalizeStages item t).metadata.snippet_is_fallback
      = item.metadata.snippet_is_fallback := by
  unfold normalizeStages
  rw [rebuildNameStep_metadata, backfillMaterialStep_metadata, fixFormStep_metadata,
    fixMaterialStep_fb]
  rw [fixFeatures_metadata, fixDims_metadata]

/-- `validateItem` in terms of the named stages (definitional). -/
lemma validateItem_eq (lines : List String) (item : Item) :
    validateItem lines item =
      (let located := locateSnippet (pyStrip item.pos) item.article_name
        item.config.material_id lines
      let item1 := setSnippetMeta item located.1 located.2
      if located.1 = "" then
        { item1 with metadata :=
            { item1.metadata with rule_confidence_score := some (1/2) } }
      else
        let item2 := normalizeStages item1 located.1
        if located.2 then
          { item2 with metadata := { item2.metadata with
              rule_confidence_score :=
                some (min (calculate_confidence item2 located.1) (3/5)),
              status := some "raw_line_not_found" } }
        else
          { item2 with metadata := { item2.metadata with
              rule_confidence_score :=
                some (calculate_confidence item2 located.1) } }) := rfl

/-- On the fallback path the normalizer records a capped score, the
`raw_line_not_found` status, and the fallback flag. -/
lemma validateItem_fallback (lines : List String) (item : Item) (t : String)
    (h : locateSnippet (pyStrip item.pos) item.article_name
        item.config.material_id lines = (t, true)) :
    ∃ c, (validateItem lines item).metadata.rule_confidence_score = some (min c (3/5)) ∧
      (validateItem lines item).metadata.status = some "raw_line_not_found" ∧
      (validateItem lines item).metadata.snippet_is_fallback = true := by
  obtain ⟨h1, hne⟩ := locateSnippet_fallback h
  have ht : t ≠ "" := by
    rw [h1]
    exact hne
  rw [validateItem_eq, h]
  dsimp only
  rw [if_neg ht]
  refine ⟨calculate_confidence (normalizeStages (setSnippetMeta item t true) t) t,
    ?_, ?_, ?_⟩
  · rfl
  · rfl
  · show (normalizeStages (setSnippetMeta item t true) t).metadata.snippet_is_fallback = true
    rw [normalizeStages_fb]
    rfl

/-- Every path of `validateItem` records a `rule_confidence_score` in
`[0, 1]`. -/
lemma validateItem_score (lines : List String) (item : Item) :
    ∃ c, (validateItem lines item).metadata.rule_confidence_score = some c ∧
      0 ≤ c ∧ c ≤ 1 := by
  rw [validateItem_eq]
  set loc := locateSnippet (pyStrip item.pos) item.article_name item.config.material_id lines
    with hloc
  dsimp only
  by_cases h0 : loc.1 = ""
  · rw [if_pos h0]
    exact ⟨1/2, rfl, by norm_num, by norm_num⟩
  · rw [if_neg h0]
    by_cases hf : loc.2 = true
    · rw [if_pos hf]
      obtain ⟨hb1, hb2⟩ := calculate_confidence_bounds
        (normalizeStages (setSnippetMeta item loc.1 loc.2) loc.1) loc.1
      refine ⟨min (calculate_confidence
        (normalizeStages (setSnippetMeta item loc.1 loc.2) loc.1) loc.1) (3/5), rfl, ?_, ?_⟩
      · exact le_min hb1 (by norm_num)
      · exact le_trans (min_le_left _ _) hb2
    · rw [if_neg hf]
      obtain ⟨hb1, hb2⟩ := calculate_confidence_bounds
        (normalizeStages (setSnippetMeta item loc.1 loc.2) loc.1) loc.1
      exact ⟨_, rfl, hb1, hb2⟩

/-- Characterization of when the escalation step invokes the verifier. -/
lemma escalateItem_invoked (item : Item) (vresp : Except String VerifResult) (c : ℚ)
    (h : item.metadata.rule_confidence_score = some c) :
    (escalateItem item vresp).2 = true ↔
      (c < 9/10 ∧ item.metadata.snippet_is_fallback = false ∧
        item.metadata.raw_text_snippet ≠ "") := by
  unfold escalateItem
  dsimp only
  rw [h]
  simp only [Option.getD_some]
  by_cases h1 : c < 9/10
  · rw [if_pos h1]
    by_cases h2 : item.metadata.snippet_is_fallback = true
    · rw [if_pos h2]
      simp [h1, h2]
    · rw [if_neg h2]
      simp only [Bool.not_eq_true] at h2
      by_cases h3 : item.metadata.raw_text_snippet ≠ ""
      · rw [if_pos h3]
        cases vresp with
        | error e => simp [h1, h2, h3]
        | ok vr =>
          by_cases h4 : vr.is_correct
          · simp [h1, h2, h3, h4]
          · cases hc : vr.correction with
            | none => simp [h1, h2, h3, h4, hc]
            | some corr => simp [h1, h2, h3, h4, hc]
      · rw [if_neg h3]
        simp [h1, h2, h3]
  · rw [if_neg h1]
    simp [h1]

/-! ### Lemmas about the dimension matchers on structured inputs (for the
tolerance-triple claim) -/

lemma takeWhile_append_sat {p : Char → Bool} (d rest : List Char)
    (hd : ∀ c ∈ d, p c = true) (hr : ∀ c, rest.head? = some c → p c = false) :
    (d ++ rest).takeWhile p = d ∧ (d ++ rest).dropWhile p = rest := by
  induction d with
  | nil =>
    cases rest with
    | nil => simp
    | cons c r =>
      have hc := hr c rfl
      simp [List.takeWhile_cons, List.dropWhile_cons, hc]
  | cons a d ih =>
    have ha : p a = true := hd a (List.mem_cons_self a d)
    have ih' := ih (fun c hc => hd c (List.mem_cons_of_mem a hc))
    simp [List.takeWhile_cons, List.dropWhile_cons, ha, ih'.1, ih'.2]

lemma numStr_head_digit {w : List Char} (hw : NumStr w) :
    ∃ c cs, w = c :: cs ∧ c.isDigit = true := by
  rcases hw with ⟨hne, hall⟩ | ⟨d1, c, d2, heq, ⟨h1ne, h1all⟩, _, _⟩
  · cases w with
    | nil => exact absurd rfl hne
    | cons c cs => exact ⟨c, cs, rfl, hall c (List.mem_cons_self c cs)⟩
  · cases d1 with
    | nil => exact absurd rfl h1ne
    | cons a d1' =>
      exact ⟨a, d1' ++ c :: d2, by simp [heq], h1all a (List.mem_cons_self a d1')⟩

/-- `matchNumAt` consumes exactly a number group when the next character
can neither extend the digit run nor start a fraction. -/
lemma matchNumAt_append {w rest : List Char} (hw : NumStr w)
    (hr : ∀ c, rest.head? = some c → c.isDigit = false ∧ c ≠ '.' ∧ c ≠ ',') :
    matchNumAt (w ++ rest) = some (w, rest) := by
  rcases hw with ⟨hne, hall⟩ | ⟨d1, c, d2, heq, ⟨h1ne, h1all⟩, hc, ⟨h2ne, h2all⟩⟩
  · obtain ⟨ht, hd⟩ := takeWhile_append_sat w rest hall (fun c hc => (hr c hc).1)
    unfold matchNumAt takeDigits
    rw [ht, hd]
    dsimp only
    rw [if_neg (by simpa using hne)]
    cases rest with
    | nil => rfl
    | cons r rs =>
      obtain ⟨-, hrd, hrc⟩ := hr r rfl
      dsimp only
      rw [if_neg (by simp [hrd, hrc])]
  · have hcd : c.isDigit = false := by
      rcases hc with h | h <;> subst h <;> decide
    obtain ⟨ht1, hd1⟩ := takeWhile_append_sat d1 (c :: (d2 ++ rest)) h1all
      (fun x hx => by
        obtain rfl : c = x := by simpa using hx
        exact hcd)
    obtain ⟨ht2, hd2⟩ := takeWhile_append_sat d2 rest h2all (fun x hx => (hr x hx).1)
    subst heq
    unfold matchNumAt takeDigits
    simp only [List.append_assoc, List.cons_append] at ht1 hd1 ⊢
    rw [ht1, hd1]
    dsimp only
    rw [if_neg (by simpa using h1ne)]
    rw [if_pos hc, ht2, hd2]
    rw [if_neg (by simpa using h2ne)]

lemma skipWs_head_not_space {cs : List Char}
    (h : ∀ c, cs.head? = some c → isSpacePy c = false) :
    skipWs cs = cs := by
  unfold skipWs
  cases cs with
  | nil => rfl
  | cons c r => simp [List.dropWhile_cons, h c rfl]

lemma digit_not_space {c : Char} (h : c.isDigit = true) : isSpacePy c = false := by
  unfold isSpacePy
  by_contra hs
  simp only [Bool.not_eq_false, decide_eq_true_eq] at hs
  rcases hs with rfl | rfl | rfl | rfl | rfl | rfl <;> exact absurd h (by decide)

/-- The tolerance-triple matcher accepts exactly the shape
`<w>H<t>x<h>x<l>` at the head of the input and captures the three numbers
and the tolerance digits. -/
lemma matchTol3dAt_concat {w t h l : List Char} {hc x1 x2 : Char}
    (hw : NumStr w) (ht : DigitStr t) (hh : NumStr h) (hl : NumStr l)
    (hhc : hc = 'h' ∨ hc = 'H') (hx1 : x1 = 'x' ∨ x1 = 'X') (hx2 : x2 = 'x' ∨ x2 = 'X') :
    matchTol3dAt (w ++ hc :: (t ++ x1 :: (h ++ x2 :: l))) = some (w, t, h, l) := by
  have hcFacts : hc.isDigit = false ∧ hc ≠ '.' ∧ hc ≠ ',' := by
    rcases hhc with rfl | rfl <;> refine ⟨by decide, by decide, by decide⟩
  have hx1Facts : x1.isDigit = false ∧ x1 ≠ '.' ∧ x1 ≠ ',' := by
    rcases hx1 with rfl | rfl <;> refine ⟨by decide, by decide, by decide⟩
  have hx2Facts : x2.isDigit = false ∧ x2 ≠ '.' ∧ x2 ≠ ',' := by
    rcases hx2 with rfl | rfl <;> refine ⟨by decide, by decide, by decide⟩
  have hx1Space : isSpacePy x1 = false := by
    rcases hx1 with rfl | rfl <;> decide
  have hx2Space : isSpacePy x2 = false := by
    rcases hx2 with rfl | rfl <;> decide
  unfold matchTol3dAt
  rw [matchNumAt_append hw (fun c hcc => by
    obtain rfl : hc = c := by simpa using hcc
    exact hcFacts)]
  simp only [Option.bind_eq_bind, Option.some_bind]
  rw [if_pos hhc]
  obtain ⟨htT, htD⟩ := takeWhile_append_sat t (x1 :: (h ++ x2 :: l)) ht.2
    (fun c hcc => by
      obtain rfl : x1 = c := by simpa using hcc
      exact hx1Facts.1)
  unfold takeDigits
  rw [htT, htD]
  rw [if_neg (by simpa using ht.1)]
  rw [skipWs_head_not_space (fun c hcc => by
    obtain rfl : x1 = c := by simpa using hcc
    exact hx1Space)]
  show (matchX (x1 :: (h ++ x2 :: l))).bind _ = _
  unfold matchX
  dsimp only
  rw [if_pos hx1]
  simp only [Option.some_bind]
  obtain ⟨hHead, hTail, hHeadEq, hHeadDigit⟩ := numStr_head_digit hh
  rw [skipWs_head_not_space (fun c hcc => by
    rw [hHeadEq] at hcc
    simp at hcc
    rw [← hcc]
    exact digit_not_space hHeadDigit)]
  rw [matchNumAt_append hh (fun c hcc => by
    obtain rfl : x2 = c := by simpa using hcc
    exact hx2Facts)]
  simp only [Option.some_bind]
  rw [skipWs_head_not_space (fun c hcc => by
    obtain rfl : x2 = c := by simpa using hcc
    exact hx2Space)]
  show (matchX (x2 :: l)).bind _ = _
  unfold matchX
  dsimp only
  rw [if_pos hx2]
  simp only [Option.some_bind]
  obtain ⟨lHead, lTail, lHeadEq, lHeadDigit⟩ := numStr_head_digit hl
  rw [skipWs_head_not_space (fun c hcc => by
    rw [lHeadEq] at hcc
    simp at hcc
    rw [← hcc]
    exact digit_not_space lHeadDigit)]
  rw [show l = l ++ [] by simp] at lHeadEq ⊢
  rw [matchNumAt_append hl (fun c hcc => by simp at hcc)]
  simp

lemma searchTol3d_of_matchAt {s : List Char} {r : List Char × List Char × List Char × List Char}
    (hs : s ≠ []) (h : matchTol3dAt s = some r) :
    searchTol3d s = some r := by
  cases s with
  | nil => exact absurd rfl hs
  | cons c cs =>
    unfold searchTol3d
    rw [h]
    rfl

/-! ### Stability of the chunk-merge sort -/

lemma filter_orderedInsert (k : ℕ) (a : Item) (l : List Item) :
    (List.orderedInsert posLe a l).filter (fun x => posVal x.pos == k)
      = if posVal a.pos = k then a :: l.filter (fun x => posVal x.pos == k)
        else l.filter (fun x => posVal x.pos == k) := by
  induction l with
  | nil =>
    by_cases hk : posVal a.pos = k <;> simp [hk]
  | cons b bs ih =>
    by_cases hab : posLe a b
    · by_cases hk : posVal a.pos = k <;> simp [hab, List.filter_cons, hk]
    · have hba : posVal b.pos < posVal a.pos := Nat.lt_of_not_le hab
      by_cases hk : posVal a.pos = k
      · have hbk : (posVal b.pos == k) = false := by
          subst hk
          simp
          omega
        simp [hab, List.filter_cons, hbk, ih, hk]
      · simp [hab, List.filter_cons, ih, hk]

lemma filter_insertionSort (k : ℕ) (l : List Item) :
    (List.insertionSort posLe l).filter (fun x => posVal x.pos == k)
      = l.filter (fun x => posVal x.pos == k) := by
  induction l with
  | nil => rfl
  | cons a l ih =>
    by_cases hk : posVal a.pos = k <;>
      simp [List.insertionSort, filter_orderedInsert, ih, List.filter_cons, hk]

lemma sortByPos_perm (items : List Item) : (sortByPos items).Perm items := by
  unfold sortByPos
  refine List.Perm.trans ?_ (List.filter_append_perm (fun i => posIsDigitStr i.pos) items)
  exact (List.perm_insertionSort posLe _).append_right _

/-! ### Sanity examples (concrete evaluations of the embedding, including
the end-to-end scenario of spec section 8) -/

example : parse_dimensions_from_string "8H9x7x36" =
    some { width := some 8, height := some 7, length := some 36 } := by decide
example : parse_dimensions_from_string "20x12x50" =
    some { width := some 20, height := some 12, length := some 50 } := by decide
example : parse_dimensions_from_string "foo 2,5 X 12" =
    some { width := some (mkRat 5 2), height := some 12, length := none } := by decide
example : parse_dimensions_from_string "B=20" = none := by decide

example : extract_features_from_string "AS-8H9X7X36-M4-NZG" =
    [⟨"thread", "M4"⟩, ⟨"tolerance", "H9"⟩, ⟨"coating", "NZG"⟩] := by decide
example : extract_features_from_string "12 Passfeder DIN6885 C45C AS 20x12x50 M6" =
    [⟨"thread", "M6"⟩] := by decide

example : fix_material "C45C" = "C45+C" := by decide
example : fix_material "P885-C45K" = "C45K" := by decide
example : fix_material "S355" = "S355" := by decide

unseal Rat.add Rat.sub Rat.mul Rat.inv in
example :
    (validateItem ["12 Passfeder DIN6885 C45C AS 20x12x50 M6"] itemEndToEnd).config.material
        = "C45+C" ∧
    (validateItem ["12 Passfeder DIN6885 C45C AS 20x12x50 M6"] itemEndToEnd).config.dimensions
        = { width := some 20, height := some 12, length := some 50 } ∧
    (validateItem ["12 Passfeder DIN6885 C45C AS 20x12x50 M6"] itemEndToEnd).config.features
        = [⟨"thread", "M6"⟩] ∧
    (validateItem ["12 Passfeder DIN6885 C45C AS 20x12x50 M6"] itemEndToEnd).metadata.rule_confidence_score
        = some 1 := by decide

/-! ### Claim theorems -/

/-- Claim C1: for every item and every raw-text snippet,
`calculate_confidence` returns a value in `[0, 1]`; for an empty (or
missing) snippet it returns exactly `0.5`; and the final
`rule_confidence_score` stored on every item by `validate_and_fix_items`
is also in `[0, 1]`. -/
theorem claim_C1_confidence_bounds :
    (∀ (item : Item) (s : String),
        0 ≤ calculate_confidence item s ∧ calculate_confidence item s ≤ 1) ∧
    (∀ item : Item, calculate_confidence item "" = 1/2) ∧
    (∀ (items : List Item) (native ocr : String) (it : Item),
        it ∈ validate_and_fix_items items native ocr →
          ∃ c, it.metadata.rule_confidence_score = some c ∧ 0 ≤ c ∧ c ≤ 1) := by
  refine ⟨fun item s => calculate_confidence_bounds item s, fun item => rfl, ?_⟩
  intro items native ocr it hmem
  unfold validate_and_fix_items at hmem
  simp only [List.mem_map] at hmem
  obtain ⟨x, -, rfl⟩ := hmem
  exact validateItem_score _ x

unseal Rat.add Rat.sub Rat.mul Rat.inv in
theorem claim_C1_confidence_bounds_witness :
    (0 ≤ calculate_confidence itemA "abc" ∧ calculate_confidence itemA "abc" ≤ 1) ∧
    calculate_confidence itemA "" = 1/2 ∧
    ∃ c, (validateItem (splitLines "hello") itemA).metadata.rule_confidence_score = some c ∧
      0 ≤ c ∧ c ≤ 1 :=
  ⟨claim_C1_confidence_bounds.1 itemA "abc",
   claim_C1_confidence_bounds.2.1 itemA,
   claim_C1_confidence_bounds.2.2 [itemA] "" "hello" _ (by decide)⟩

/-- Claim C2: for every string containing a tolerance-qualified triple
`<w>H<t>x<h>x<l>` (leftmost match of the tolerance pattern), dimension
parsing returns `{width: w, height: h, length: l}`, and the tolerance token
`H<t>` is assigned to no dimension field (the result depends only on the
three number groups); moreover a string that is literally such a triple
(numbers with `.` or `,` decimals, separators case-insensitive) parses to
exactly its three numbers. -/
theorem claim_C2_tolerance_triple :
    (∀ (s : String) (w t h l : List Char),
        searchTol3d s.data = some (w, t, h, l) →
          parse_dimensions_from_string s
            = some { width := some (numVal w), height := some (numVal h),
                     length := some (numVal l) }) ∧
    (∀ (w t h l : List Char) (hc x1 x2 : Char),
        NumStr w → DigitStr t → NumStr h → NumStr l →
        (hc = 'h' ∨ hc = 'H') → (x1 = 'x' ∨ x1 = 'X') → (x2 = 'x' ∨ x2 = 'X') →
          parse_dimensions_from_string (String.mk (w ++ hc :: (t ++ x1 :: (h ++ x2 :: l))))
            = some { width := some (numVal w), height := some (numVal h),
                     length := some (numVal l) }) := by
  constructor
  · intro s w t h l hs
    unfold parse_dimensions_from_string
    rw [hs]
  · intro w t h l hc x1 x2 hw ht hh hl hhc hx1 hx2
    have hmatch := matchTol3dAt_concat hw ht hh hl hhc hx1 hx2
    have hne : w ++ hc :: (t ++ x1 :: (h ++ x2 :: l)) ≠ [] := by
      obtain ⟨c, cs, rfl, -⟩ := numStr_head_digit hw
      simp
    have hsearch := searchTol3d_of_matchAt hne hmatch
    unfold parse_dimensions_from_string
    have hdata : (String.mk (w ++ hc :: (t ++ x1 :: (h ++ x2 :: l)))).data
        = w ++ hc :: (t ++ x1 :: (h ++ x2 :: l)) := rfl
    rw [hdata, hsearch]

/-- Witness for C2: the triple `8H9x7x36` at both entry points. -/
theorem claim_C2_tolerance_triple_witness :
    parse_dimensions_from_string "8H9x7x36"
      = some { width := some (numVal ['8']), height := some (numVal ['7']),
               length := some (numVal ['3', '6']) } ∧
    parse_dimensions_from_string
        (String.mk (['8'] ++ 'H' :: (['9'] ++ 'x' :: (['7'] ++ 'x' :: ['3', '6']))))
      = some { width := some (numVal ['8']), height := some (numVal ['7']),
               length := some (numVal ['3', '6']) } :=
  ⟨claim_C2_tolerance_triple.1 "8H9x7x36" ['8'] ['9'] ['7'] ['3', '6'] (by decide),
   claim_C2_tolerance_triple.2 ['8'] ['9'] ['7'] ['3', '6'] 'H' 'x' 'x'
     (Or.inl (by decide)) (by decide) (Or.inl (by decide)) (Or.inl (by decide))
     (Or.inr rfl) (Or.inl rfl) (Or.inl rfl)⟩

/-- Claim C3: the verifier is invoked if and only if the item's
`rule_confidence_score` is strictly below `0.9`, its snippet is not a
fallback snippet, and its `raw_text_snippet` is nonempty. -/
theorem claim_C3_escalation_iff :
    ∀ (item : Item) (v : Except String VerifResult) (c : ℚ),
      item.metadata.rule_confidence_score = some c →
        ((escalateItem item v).2 = true ↔
          (c < 9/10 ∧ item.metadata.snippet_is_fallback = false ∧
            item.metadata.raw_text_snippet ≠ "")) :=
  fun item v c h => escalateItem_invoked item v c h

unseal Rat.add Rat.sub Rat.mul Rat.inv in
theorem claim_C3_escalation_iff_witness :
    ((escalateItem itemC3lo vOk).2 = true ↔
      ((17:ℚ)/20 < 9/10 ∧ itemC3lo.metadata.snippet_is_fallback = false ∧
        itemC3lo.metadata.raw_text_snippet ≠ "")) ∧
    ((escalateItem itemC3hi vOk).2 = true ↔
      ((19:ℚ)/20 < 9/10 ∧ itemC3hi.metadata.snippet_is_fallback = false ∧
        itemC3hi.metadata.raw_text_snippet ≠ "")) ∧
    (escalateItem itemC3lo vOk).2 = true ∧
    (escalateItem itemC3hi vOk).2 = false :=
  ⟨claim_C3_escalation_iff itemC3lo vOk (17/20) rfl,
   claim_C3_escalation_iff itemC3hi vOk (19/20) rfl,
   by decide, by decide⟩

unseal Rat.add Rat.sub Rat.mul Rat.inv in
theorem claim_C4_counterexample :
    itemC4.metadata.status = none ∧
      (escalateItem itemC4 (.ok (verify_item "key" (.error "timeout")))).1.metadata.status
        = some "verified_correct" :=
  ⟨rfl, by decide⟩

/-- Claim C4 (amended): when the verifier call fails, `verify_item`
converts the failure into an `is_correct = true` result, so the pipeline
fails open: the item's `config` and `article_name` are unchanged and no
correction is merged — but, because the fail-open result is
indistinguishable from a genuine pass, `metadata.status` is set to
`verified_correct` rather than left unchanged.  Only when the verifier
invocation itself raises past `verify_item` (the source's unreachable
`except` arm) is the item left entirely unchanged. -/
theorem claim_C4_fail_open_amended :
    (∀ (k e : String), k ≠ "" →
        verify_item k (.error e) = failOpenResult ("Verifier Error: " ++ e) ∧
        (verify_item k (.error e)).is_correct = true) ∧
    (∀ (item : Item) (k e : String) (c : ℚ), k ≠ "" →
        item.metadata.rule_confidence_score = some c → c < 9/10 →
        item.metadata.snippet_is_fallback = false →
        item.metadata.raw_text_snippet ≠ "" →
          (escalateItem item (.ok (verify_item k (.error e)))).1.config = item.config ∧
          (escalateItem item (.ok (verify_item k (.error e)))).1.article_name
            = item.article_name ∧
          (escalateItem item (.ok (verify_item k (.error e)))).1.metadata.status
            = some "verified_correct") ∧
    (∀ (item : Item) (e : String) (c : ℚ),
        item.metadata.rule_confidence_score = some c → c < 9/10 →
        item.metadata.snippet_is_fallback = false →
        item.metadata.raw_text_snippet ≠ "" →
          escalateItem item (.error e) = (item, true)) := by
  have hverify : ∀ (k e : String), k ≠ "" →
      verify_item k (.error e) = failOpenResult ("Verifier Error: " ++ e) := by
    intro k e hk
    unfold verify_item
    rw [if_neg hk]
  refine ⟨fun k e hk => ⟨hverify k e hk, by rw [hverify k e hk]; rfl⟩, ?_, ?_⟩
  · intro item k e c hk hscore hc hfb hsnip
    rw [hverify k e hk]
    unfold escalateItem
    dsimp only
    rw [hscore]
    simp only [Option.getD_some]
    rw [if_pos hc, if_neg (by simp [hfb]), if_pos hsnip]
    exact ⟨rfl, rfl, rfl⟩
  · intro item e c hscore hc hfb hsnip
    unfold escalateItem
    dsimp only
    rw [hscore]
    simp only [Option.getD_some]
    rw [if_pos hc, if_neg (by simp [hfb]), if_pos hsnip]

unseal Rat.add Rat.sub Rat.mul Rat.inv in
theorem claim_C4_fail_open_amended_witness :
    (verify_item "key" (.error "boom") = failOpenResult ("Verifier Error: " ++ "boom") ∧
      (verify_item "key" (.error "boom")).is_correct = true) ∧
    ((escalateItem itemC4 (.ok (verify_item "key" (.error "boom")))).1.config
        = itemC4.config ∧
      (escalateItem itemC4 (.ok (verify_item "key" (.error "boom")))).1.article_name
        = itemC4.article_name ∧
      (escalateItem itemC4 (.ok (verify_item "key" (.error "boom")))).1.metadata.status
        = some "verified_correct") ∧
    escalateItem itemC4 (.error "boom") = (itemC4, true) :=
  ⟨claim_C4_fail_open_amended.1 "key" "boom" (by decide),
   claim_C4_fail_open_amended.2.1 itemC4 "key" "boom" (17/20) (by decide) rfl (by decide)
     rfl (by decide),
   claim_C4_fail_open_amended.2.2 itemC4 "boom" (17/20) rfl (by decide) rfl (by decide)⟩

/-- Claim C5: an item whose snippet came from the article-name fallback
leaves the validator with `snippet_is_fallback = true`, and the escalation
step then never calls the verifier and sets
`status = verified_skipped_fallback`. -/
theorem claim_C5_fallback_skips_verifier :
    ∀ (lines : List String) (item : Item) (t : String) (v : Except String VerifResult),
      locateSnippet (pyStrip item.pos) item.article_name item.config.material_id lines
          = (t, true) →
        (validateItem lines item).metadata.snippet_is_fallback = true ∧
        (escalateItem (validateItem lines item) v).2 = false ∧
        (escalateItem (validateItem lines item) v).1.metadata.status
          = some "verified_skipped_fallback" := by
  intro lines item t v h
  obtain ⟨c, hscore, hstatus, hfb⟩ := validateItem_fallback lines item t h
  have hconf : (validateItem lines item).metadata.rule_confidence_score.getD 1 < 9/10 := by
    rw [hscore]
    simp only [Option.getD_some]
    have h1 : min c (3/5) ≤ 3/5 := min_le_right _ _
    have h2 : (3:ℚ)/5 < 9/10 := by norm_num
    linarith
  have hesc : escalateItem (validateItem lines item) v
      = ({ validateItem lines item with
            metadata := { (validateItem lines item).metadata with
              status := some "verified_skipped_fallback" } }, false) := by
    unfold escalateItem
    dsimp only
    rw [if_pos hconf, if_pos hfb]
  rw [hesc]
  exact ⟨hfb, rfl, rfl⟩

unseal Rat.add Rat.sub Rat.mul Rat.inv in
theorem claim_C5_fallback_skips_verifier_witness :
    (validateItem ["zzz"] itemC10).metadata.snippet_is_fallback = true ∧
    (escalateItem (validateItem ["zzz"] itemC10) vOk).2 = false ∧
    (escalateItem (validateItem ["zzz"] itemC10) vOk).1.metadata.status
      = some "verified_skipped_fallback" :=
  claim_C5_fallback_skips_verifier ["zzz"] itemC10 "AAAA-BBBB-CCCC" vOk (by decide)

/-- Counterexample to C6 as stated: the position `"1.5"` parses as a
number (so the claim sorts it among the numeric items, before `"2"`), but
the merge classifies only all-digit positions as numeric and appends
`"1.5"` after the sorted numeric items. -/
theorem claim_C6_counterexample :
    posNumericSpec "1.5" = true ∧ posNumericSpec "2" = true ∧
    (parsePyFloat "1.5").getD 0 < (parsePyFloat "2").getD 0 ∧
    mergeChunkItems [.ok [mkPosItem "2"], .ok [mkPosItem "1.5"]]
      = [mkPosItem "2", mkPosItem "1.5"] := by
  refine ⟨rfl, rfl, by decide, by decide⟩

/-- Claim C6 (amended): the chunk merge concatenates all partitions'
items, places the items whose `pos` is a nonempty all-digit string first,
stably sorted ascending by the numeric value (sortedness, permutation and
stability are stated separately), and appends the remaining items in their
original extraction order; partitions `["10", "5"]` and `["20", "x"]`
merge to the order `5, 10, 20, x`. -/
theorem claim_C6_merge_amended :
    (∀ items : List Item,
        sortByPos items
          = List.insertionSort posLe (items.filter (fun i => posIsDigitStr i.pos))
              ++ items.filter (fun i => !posIsDigitStr i.pos) ∧
        List.Sorted posLe
          (List.insertionSort posLe (items.filter (fun i => posIsDigitStr i.pos))) ∧
        (List.insertionSort posLe (items.filter (fun i => posIsDigitStr i.pos))).Perm
          (items.filter (fun i => posIsDigitStr i.pos)) ∧
        (∀ k : ℕ,
          (List.insertionSort posLe (items.filter (fun i => posIsDigitStr i.pos))).filter
              (fun x => posVal x.pos == k)
            = (items.filter (fun i => posIsDigitStr i.pos)).filter
                (fun x => posVal x.pos == k))) ∧
    mergeChunkItems [.ok [mkPosItem "10", mkPosItem "5"], .ok [mkPosItem "20", mkPosItem "x"]]
      = [mkPosItem "5", mkPosItem "10", mkPosItem "20", mkPosItem "x"] := by
  constructor
  · intro items
    exact ⟨rfl, List.sorted_insertionSort posLe _, List.perm_insertionSort posLe _,
      fun k => filter_insertionSort k _⟩
  · decide

/-- Counterexample to C7 as stated: when every partition fails, the run
does not propagate a hard failure — it succeeds with an empty item list. -/
theorem claim_C7_counterexample :
    extractChunked [.error "boom1", .error "boom2"] = .ok ([] : List Item) := rfl

/-- Claim C7 (amended): partition failures are isolated — if exactly one
of the two partitions fails, the merged result is exactly the other
partition's items (reordered by the position sort, hence a permutation of
them) and the run succeeds; and when every partition fails the run still
succeeds, returning an empty item list rather than a hard failure. -/
theorem claim_C7_partition_isolation_amended :
    (∀ (e : String) (its : List Item),
        extractChunked [.error e, .ok its] = .ok (sortByPos its) ∧
        extractChunked [.ok its, .error e] = .ok (sortByPos its) ∧
        (sortByPos its).Perm its) ∧
    (∀ e1 e2 : String, extractChunked [.error e1, .error e2] = .ok []) := by
  refine ⟨fun e its => ⟨rfl, rfl, sortByPos_perm its⟩, fun e1 e2 => rfl⟩

unseal Rat.add Rat.sub Rat.mul Rat.inv in
theorem claim_C8_counterexample :
    (itemC8.config.form.length = 1 ∧
      substr (itemC8.config.form ++ "=") (removeSpaces "B=20") = true) ∧
    calculate_confidence itemC8 "B=20" = 1 - 2/5 - 2/5 ∧
    calculate_confidence itemC8 "B=20" ≠ 1 - 2/5 :=
  ⟨⟨rfl, rfl⟩, by decide, by decide⟩

/-- Claim C8 (amended): for every item whose `config.form` is a single
letter that appears in the snippet immediately followed by `=` (ignoring
spaces), the scorer deducts `0.4` for form/dimension-label confusion,
additively with the other penalties and clipped to `[0, 1]` — except that
when the form is the letter `B` and the literal substring `B=` occurs in
the unmodified snippet, a second hard-coded check also fires and the
combined deduction is `0.8`. -/
theorem claim_C8_form_label_amended :
    ∀ (item : Item) (s : String),
      s ≠ "" →
      item.config.form.length = 1 →
      substr (item.config.form ++ "=") (removeSpaces s) = true →
        calculate_confidence item s
          = max 0 (1 - otherPenalties item s -
              (if item.config.form = "B" ∧ substr "B=" s then 4/5 else 2/5)) := by
  intro item s hs hlen hsub
  rw [calculate_confidence_eq item s hs]
  congr 1
  have hform : item.config.form ≠ "" := by
    intro h0
    rw [h0] at hlen
    simp at hlen
  unfold formLabelPenalty
  rw [if_pos ⟨hform, hlen, hsub⟩]
  by_cases hb : item.config.form = "B" ∧ substr "B=" s = true
  · rw [if_pos hb, if_pos hb]
    ring
  · rw [if_neg hb, if_neg hb]
    ring

unseal Rat.add Rat.sub Rat.mul Rat.inv in
theorem claim_C8_form_label_amended_witness :
    calculate_confidence itemC8 "B=20"
      = max 0 (1 - otherPenalties itemC8 "B=20" -
          (if itemC8.config.form = "B" ∧ substr "B=" "B=20" then 4/5 else 2/5)) :=
  claim_C8_form_label_amended itemC8 "B=20" (by decide) (by decide) (by decide)

/-- Counterexample to C9 as stated: for the article `AAAA-BBBB-CCCC` and a
source line containing the tokens `AAAA` and `BBBB` (two of the three kept
tokens) but not `CCCC`, the spec-worded locator selects the line, while
the code requires every kept token and falls through to the article-name
fallback. -/
theorem claim_C9_counterexample :
    tokenOverlapSnippetSpec "AAAA-BBBB-CCCC" ["AAAA BBBB zz"] = some "AAAA BBBB zz" ∧
    locateSnippet "1" "AAAA-BBBB-CCCC" "" ["AAAA BBBB zz"] = ("AAAA-BBBB-CCCC", true) :=
  ⟨by decide, by decide⟩

/-- Claim C9 (amended): when neither a position anchor nor a material-id
line is found, the locator splits `article_name` on `-`, keeps the tokens
longer than three characters, and selects the first source line containing
every kept token, provided at least two tokens were kept; otherwise the
article-name fallback applies. -/
theorem claim_C9_token_overlap_amended :
    ∀ (pos article matId : String) (lines : List String),
      posAnchorSnippet pos lines = none →
      materialIdSnippet matId lines = none →
      article ≠ "" →
        (locateSnippet pos article matId lines
          = match tokenOverlapSnippet article lines with
            | some t => (t, false)
            | none => (article, true)) ∧
        (∀ t, tokenOverlapSnippet article lines = some t →
            t ∈ lines ∧ 2 ≤ (significantTokens article).length ∧
              ∀ part ∈ significantTokens article, substr part t = true) := by
  intro pos article matId lines h1 h2 ha
  constructor
  · unfold locateSnippet
    rw [h1, h2]
    dsimp only
    rw [if_pos ha]
    rcases h3 : tokenOverlapSnippet article lines with _ | t
    · dsimp only
      rw [if_pos ha]
    · rfl
  · intro t hfind
    unfold tokenOverlapSnippet at hfind
    have hpred := List.find?_some hfind
    have hmem := List.mem_of_find?_eq_some hfind
    simp only [Bool.and_eq_true, decide_eq_true_eq, List.all_eq_true] at hpred
    exact ⟨hmem, hpred.1, hpred.2⟩

/-- Witness for the amended C9 at a concrete document. -/
theorem claim_C9_token_overlap_amended_witness :
    (locateSnippet "1" "AAAA-BBBB-CCCC" "" ["xx AAAA BBBB CCCC yy"]
      = match tokenOverlapSnippet "AAAA-BBBB-CCCC" ["xx AAAA BBBB CCCC yy"] with
        | some t => (t, false)
        | none => ("AAAA-BBBB-CCCC", true)) ∧
    (∀ t, tokenOverlapSnippet "AAAA-BBBB-CCCC" ["xx AAAA BBBB CCCC yy"] = some t →
        t ∈ ["xx AAAA BBBB CCCC yy"] ∧
          2 ≤ (significantTokens "AAAA-BBBB-CCCC").length ∧
          ∀ part ∈ significantTokens "AAAA-BBBB-CCCC", substr part t = true) :=
  claim_C9_token_overlap_amended "1" "AAAA-BBBB-CCCC" "" ["xx AAAA BBBB CCCC yy"]
    (by decide) (by decide) (by decide)

/-- Claim C10: every item whose snippet came from the article-name
fallback leaves the normalizer with `rule_confidence_score` at most `0.6`
and `metadata.status = "raw_line_not_found"`, unconditionally and before
any escalation handling. -/
theorem claim_C10_fallback_cap :
    ∀ (lines : List String) (item : Item) (t : String),
      locateSnippet (pyStrip item.pos) item.article_name item.config.material_id lines
          = (t, true) →
        (∃ c, (validateItem lines item).metadata.rule_confidence_score = some c ∧
          c ≤ 3/5) ∧
        (validateItem lines item).metadata.status = some "raw_line_not_found" ∧
        (validateItem lines item).metadata.snippet_is_fallback = true := by
  intro lines item t h
  obtain ⟨c, hscore, hstatus, hfb⟩ := validateItem_fallback lines item t h
  exact ⟨⟨min c (3/5), hscore, min_le_right _ _⟩, hstatus, hfb⟩

unseal Rat.add Rat.sub Rat.mul Rat.inv in
theorem claim_C10_fallback_cap_witness :
    (∃ c, (validateItem ["zzz"] itemC10).metadata.rule_confidence_score = some c ∧
      c ≤ 3/5) ∧
    (validateItem ["zzz"] itemC10).metadata.status = some "raw_line_not_found" ∧
    (validateItem ["zzz"] itemC10).metadata.snippet_is_fallback = true :=
  claim_C10_fallback_cap ["zzz"] itemC10 "AAAA-BBBB-CCCC" (by decide)

end RfqEngine
